import Mathlib

/-
Verification of the diet linear-program example (`src/examples/diet.rs`)
against its design specification.

The example formulates a cost-minimising diet LP: one non-negative decision
variable per dish, per-nutrient aggregated linear expressions, and one
constraint per Minimum/Maximum guideline.  The `good_lp` library types
(`Expression`, `Variable`, `constraint!`, `solve`) are not part of the
source under verification, so they are modelled from the specification's
data model (spec §3, §4.2, §6); everything else is translated directly
from `diet.rs`.

Numeric literals in the source are `f64`; they are modelled as exact
rationals (ℚ), which is faithful for the structural and feasibility
properties verified here (all source literals are short decimals).
-/

namespace Diet

/-- The `Dish` enum from `diet.rs`. -/
inductive Dish
  | Hamburger
  | Chicken
  | HotDog
  | Fries
  | Macaroni
  | Pizza
  | Salad
  | Milk
  | IceCream
deriving DecidableEq, Repr, Fintype

/-- `Dish::FOODS`: the fixed array of the nine dishes. -/
def Dish.FOODS : List Dish :=
  [.Hamburger, .Chicken, .HotDog, .Fries, .Macaroni, .Pizza, .Salad, .Milk, .IceCream]

/-- The `Nutrient` enum from `diet.rs`. -/
inductive Nutrient
  | Calories
  | Protein
  | Sodium
  | Fat
deriving DecidableEq, Repr, Fintype

/-- The `Quantity` enum from `diet.rs`: kind of a guideline bound. -/
inductive Quantity
  | Min
  | Max
  | Value
deriving DecidableEq, Repr

/-- `FoodProperty`: a (nutrient, volume, level) triple from `diet.rs`. -/
structure FoodProperty where
  nutrient : Nutrient
  volume : ℚ
  level : Quantity
deriving DecidableEq, Repr

/-- `Guideline` from `diet.rs`: wraps one `FoodProperty` limit. -/
structure Guideline where
  limit : FoodProperty
deriving DecidableEq, Repr

/-- `FoodProperties` from `diet.rs`: a dish with its cost and nutrient table. -/
structure FoodProperties where
  food : Dish
  cost : ℚ
  nutrients : List FoodProperty
deriving DecidableEq, Repr

/-- Modelled from the spec: `good_lp`'s `Expression` type is not under
`src/`; spec §3 defines an Expression as a mapping from Variable to real
coefficient plus an optional constant term.  Variables are in bijection
with dishes in this program, so coefficients are keyed by `Dish`. -/
structure Expression where
  coeffs : Dish → ℚ
  constant : ℚ

theorem Expression.ext_mk {f g : Dish → ℚ} {c d : ℚ}
    (h1 : f = g) (h2 : c = d) : Expression.mk f c = Expression.mk g d := by
  rw [h1, h2]

/-- Modelled from the spec (§4.2): the zero Expression. -/
def Expression.zero : Expression := ⟨fun _ => 0, 0⟩

/-- Modelled from the spec (§4.2): adding two Expressions sums the
coefficients of shared variables and the constants. -/
def Expression.add (e₁ e₂ : Expression) : Expression :=
  ⟨fun d => e₁.coeffs d + e₂.coeffs d, e₁.constant + e₂.constant⟩

/-- Modelled from the spec (§4.2): scaling a Variable by a coefficient,
i.e. the source's `*food_var * volume`. -/
def term (d : Dish) (c : ℚ) : Expression :=
  ⟨fun d' => if d' = d then c else 0, 0⟩

/-- Modelled from the spec (§4.2): summing a sequence of Expressions,
i.e. the source's `.iter().sum::<Expression>()` (fold of addition
starting from the zero Expression). -/
def sumExprs (l : List Expression) : Expression :=
  l.foldl Expression.add Expression.zero

/-- Modelled from the spec (§3): evaluating an Expression at an
assignment of values to the dish variables. -/
def evalExpr (e : Expression) (a : Dish → ℚ) : ℚ :=
  (Dish.FOODS.map (fun d => e.coeffs d * a d)).sum + e.constant

/-- Constraint relation: `>=` or `<=` as produced by the `constraint!`
macro invocations in `diet.rs`. -/
inductive Rel
  | ge
  | le
deriving DecidableEq, Repr

/-- Modelled from the spec (§3): a Constraint is (Expression, relation,
bound value). -/
structure Constraint where
  lhs : Expression
  rel : Rel
  rhs : ℚ

/-- An assignment satisfies a constraint. -/
def Satisfies (a : Dish → ℚ) (c : Constraint) : Prop :=
  match c.rel with
  | .ge => c.rhs ≤ evalExpr c.lhs a
  | .le => evalExpr c.lhs a ≤ c.rhs

instance (a : Dish → ℚ) (c : Constraint) : Decidable (Satisfies a c) :=
  match c with
  | ⟨lhs, .ge, rhs⟩ => inferInstanceAs (Decidable (rhs ≤ evalExpr lhs a))
  | ⟨lhs, .le, rhs⟩ => inferInstanceAs (Decidable (evalExpr lhs a ≤ rhs))

/-- Optimisation direction (`vars.minimise(...)` in the source). -/
inductive Direction
  | minimize
  | maximize
deriving DecidableEq, Repr

/-- The formulation handed to the solver: objective with direction, and
the constraint list. -/
structure LP where
  direction : Direction
  objective : Expression
  constraints : List Constraint

/- ----------------------------------------------------------------
   Variable registration (`diet.rs` lines 92-99).

   The source iterates `Dish::FOODS`, calls `vars.add(variable().min(0.0))`
   for each entry, and collects the `(dish, variable)` pairs into a
   `HashMap<&Dish, Variable>`.
   ---------------------------------------------------------------- -/

/-- A variable definition as created by `variable().min(0.0)`:
lower bound 0, no upper bound. -/
structure VarDef where
  lo : Option ℚ
  hi : Option ℚ
deriving DecidableEq, Repr

/-- `variable().min(0.0)`. -/
def varMin0 : VarDef := ⟨some 0, none⟩

/-- `diet.rs` lines 93-99: one `vars.add(variable().min(0.0))` per list
entry; variable handles are creation indices; the `(dish, handle)` pairs
are collected into a map.  Returns (created variable definitions,
association list in insertion order). -/
def registerFoods (ds : List Dish) : List VarDef × List (Dish × Nat) :=
  (ds.map fun _ => varMin0, ds.enum.map fun p => (p.2, p.1))

/-- `HashMap::get` on a map built by `collect`: later insertions with the
same key overwrite earlier ones, so lookup returns the value of the last
matching pair. -/
def getVar (assoc : List (Dish × Nat)) (d : Dish) : Option Nat :=
  assoc.foldl (fun acc p => if p.1 = d then some p.2 else acc) none

/-- The association list `food_vars` of `solve_diet_example`. -/
def foodVarsAssoc : List (Dish × Nat) := (registerFoods Dish.FOODS).2

/- ----------------------------------------------------------------
   Objective (`diet.rs` lines 103-113).
   ---------------------------------------------------------------- -/

/-- `diet.rs` lines 104-110: the cost objective
`food_properties.iter().map(|f| food_vars[food] * cost).sum()`. -/
def objectiveExpr (fps : List FoodProperties) : Expression :=
  sumExprs (fps.map fun fp => term fp.food fp.cost)

/- ----------------------------------------------------------------
   Per-nutrient aggregation (`diet.rs` lines 116-129).

   The source builds `h : HashMap<&Nutrient, Vec<Expression>>`: for each
   food, for each of its nutrient entries, it pushes
   `*food_var * category.volume` onto the vector of that entry's nutrient
   (inserting a singleton vector if the key is vacant).
   ---------------------------------------------------------------- -/

/-- The inner loop of `diet.rs` lines 119-128 for a single food: pushes
one term per nutrient entry onto that nutrient's list. -/
def stepFood (h : Nutrient → List Expression) (fp : FoodProperties) :
    Nutrient → List Expression :=
  fp.nutrients.foldl
    (fun h' p => fun n => if n = p.nutrient then h' n ++ [term fp.food p.volume] else h' n)
    h

/-- The outer loop of `diet.rs` lines 117-129, starting from a given map. -/
def buildHFrom (h0 : Nutrient → List Expression) (fps : List FoodProperties) :
    Nutrient → List Expression :=
  fps.foldl stepFood h0

/-- The aggregation map `h` of `solve_diet_example` (starting empty). -/
def buildH (fps : List FoodProperties) : Nutrient → List Expression :=
  buildHFrom (fun _ => []) fps

/-- `h.get(&nutrient)` on the HashMap: a key is present iff at least one
term was pushed for it, i.e. iff its list is non-empty. -/
def hGet (h : Nutrient → List Expression) (n : Nutrient) : Option (List Expression) :=
  if (h n).isEmpty then none else some (h n)

/-- The aggregated Expression of a nutrient category: the sum of its
accumulated per-entry terms. -/
def categoryExpr (fps : List FoodProperties) (n : Nutrient) : Expression :=
  sumExprs (buildH fps n)

/- ----------------------------------------------------------------
   Guideline translation (`diet.rs` lines 133-150).
   ---------------------------------------------------------------- -/

/-- `diet.rs` lines 134-149 for one guideline: look up the nutrient's
vector (`.expect("Library test")` aborts when the key is absent — modelled
as an error carrying the panic message), sum it, then match on the level:
Min adds `food_sum >= volume + 0.0001`, Max adds `food_sum <= volume`,
Value adds nothing. -/
def guidelineConstraints (h : Nutrient → List Expression) (g : Guideline) :
    Except String (List Constraint) :=
  match hGet h g.limit.nutrient with
  | none => .error "Library test"
  | some exprs =>
    let food_sum := sumExprs exprs
    match g.limit.level with
    | .Min => .ok [⟨food_sum, .ge, g.limit.volume + 0.0001⟩]
    | .Max => .ok [⟨food_sum, .le, g.limit.volume⟩]
    | .Value => .ok []

/-- The guideline loop of `diet.rs` lines 133-150: constraints are added
one guideline at a time, in order; a panic inside the loop aborts the
rest of the run. -/
def constraintsLoop (h : Nutrient → List Expression) :
    List Guideline → Except String (List Constraint)
  | [] => Except.ok []
  | g :: gs =>
    match guidelineConstraints h g with
    | .error e => .error e
    | .ok cs =>
      match constraintsLoop h gs with
      | .error e => .error e
      | .ok rest => .ok (cs ++ rest)

/-- All constraints added by the guideline loop of `solve_diet_example`,
run against the aggregation map of the given food properties. -/
def formulateConstraints (gs : List Guideline) (fps : List FoodProperties) :
    Except String (List Constraint) :=
  constraintsLoop (buildH fps) gs

/-- The full formulation built by `solve_diet_example` before the solve
call: minimise the cost objective subject to the guideline constraints
(`diet.rs` lines 103-150). -/
def formulate (gs : List Guideline) (fps : List FoodProperties) :
    Except String LP :=
  match formulateConstraints gs fps with
  | .error e => .error e
  | .ok cs => .ok ⟨.minimize, objectiveExpr fps, cs⟩

/- ----------------------------------------------------------------
   Solver behaviour, modelled from the spec.
   ---------------------------------------------------------------- -/

/-- Modelled from the spec: `good_lp`'s backend `solve()` is not under
`src/`.  Spec §6/§8: every decision variable has lower bound 0
(`variable().min(0.0)`), a Solution satisfies every constraint, and the
objective is minimised.  A feasible point of a formulation. -/
def FeasiblePoint (lp : LP) (a : Dish → ℚ) : Prop :=
  (∀ d, 0 ≤ a d) ∧ ∀ c ∈ lp.constraints, Satisfies a c

/-- Modelled from the spec: an optimal solution of a minimisation
formulation — a feasible point whose objective value is at most that of
every feasible point. -/
def IsOptimal (lp : LP) (a : Dish → ℚ) : Prop :=
  FeasiblePoint lp a ∧ ∀ b, FeasiblePoint lp b → evalExpr lp.objective a ≤ evalExpr lp.objective b

/-- A formulation is infeasible when no assignment is a feasible point. -/
def Infeasible (lp : LP) : Prop :=
  ∀ a, ¬ FeasiblePoint lp a

/- ----------------------------------------------------------------
   The literal Scenario A data constructed in `main`
   (`diet.rs` lines 162-450).
   ---------------------------------------------------------------- -/

/-- `food_guidelines` from `main` (`diet.rs` lines 163-213).  Note the
fifth entry: the source writes `Nutrient::Calories` with volume 65 and
level Max. -/
def mainGuidelines : List Guideline :=
  [ ⟨⟨.Calories, 1800, .Min⟩⟩,
    ⟨⟨.Calories, 2200, .Max⟩⟩,
    ⟨⟨.Protein, 91, .Min⟩⟩,
    ⟨⟨.Fat, 0, .Min⟩⟩,
    ⟨⟨.Calories, 65, .Max⟩⟩,
    ⟨⟨.Sodium, 0, .Min⟩⟩,
    ⟨⟨.Sodium, 1779, .Max⟩⟩ ]

/-- `food_properties` from `main` (`diet.rs` lines 215-450): the nine
reference dishes with their literal costs and nutrient contents. -/
def mainFoodProperties : List FoodProperties :=
  [ ⟨.Hamburger, 2.49,
      [⟨.Calories, 410, .Value⟩, ⟨.Protein, 24, .Value⟩,
       ⟨.Sodium, 730, .Value⟩, ⟨.Fat, 26, .Value⟩]⟩,
    ⟨.Chicken, 2.89,
      [⟨.Calories, 420, .Value⟩, ⟨.Protein, 32, .Value⟩,
       ⟨.Sodium, 1190, .Value⟩, ⟨.Fat, 10, .Value⟩]⟩,
    ⟨.HotDog, 1.5,
      [⟨.Calories, 560, .Value⟩, ⟨.Protein, 20, .Value⟩,
       ⟨.Sodium, 1800, .Value⟩, ⟨.Fat, 32, .Value⟩]⟩,
    ⟨.Fries, 1.89,
      [⟨.Calories, 380, .Value⟩, ⟨.Protein, 4, .Value⟩,
       ⟨.Sodium, 270, .Value⟩, ⟨.Fat, 19, .Value⟩]⟩,
    ⟨.Macaroni, 2.09,
      [⟨.Calories, 320, .Value⟩, ⟨.Protein, 12, .Value⟩,
       ⟨.Sodium, 930, .Value⟩, ⟨.Fat, 10, .Value⟩]⟩,
    ⟨.Pizza, 1.99,
      [⟨.Calories, 320, .Value⟩, ⟨.Protein, 15, .Value⟩,
       ⟨.Sodium, 820, .Value⟩, ⟨.Fat, 12, .Value⟩]⟩,
    ⟨.Salad, 2.49,
      [⟨.Calories, 320, .Value⟩, ⟨.Protein, 31, .Value⟩,
       ⟨.Sodium, 1230, .Value⟩, ⟨.Fat, 12, .Value⟩]⟩,
    ⟨.Milk, 0.89,
      [⟨.Calories, 100, .Value⟩, ⟨.Protein, 8, .Value⟩,
       ⟨.Sodium, 125, .Value⟩, ⟨.Fat, 2.5, .Value⟩]⟩,
    ⟨.IceCream, 1.59,
      [⟨.Calories, 330, .Value⟩, ⟨.Protein, 8, .Value⟩,
       ⟨.Sodium, 180, .Value⟩, ⟨.Fat, 10, .Value⟩]⟩ ]

/-- The Scenario A guideline list as the specification's reference diet
table states it: identical to `mainGuidelines` except that the fifth
guideline bounds Fat (not Calories) above by 65. -/
def specGuidelines : List Guideline :=
  [ ⟨⟨.Calories, 1800, .Min⟩⟩,
    ⟨⟨.Calories, 2200, .Max⟩⟩,
    ⟨⟨.Protein, 91, .Min⟩⟩,
    ⟨⟨.Fat, 0, .Min⟩⟩,
    ⟨⟨.Fat, 65, .Max⟩⟩,
    ⟨⟨.Sodium, 0, .Min⟩⟩,
    ⟨⟨.Sodium, 1779, .Max⟩⟩ ]

/- ----------------------------------------------------------------
   Expression-algebra lemmas.
   ---------------------------------------------------------------- -/

lemma sum_map_add {α : Type} (f g : α → ℚ) (l : List α) :
    (l.map (fun x => f x + g x)).sum = (l.map f).sum + (l.map g).sum := by
  induction l with
  | nil => simp
  | cons x xs ih => simp [ih]; ring

lemma foldl_add_coeffs (l : List Expression) (init : Expression) (d : Dish) :
    (l.foldl Expression.add init).coeffs d
      = init.coeffs d + (l.map (fun e => e.coeffs d)).sum := by
  induction l generalizing init with
  | nil => simp
  | cons e es ih =>
    rw [List.foldl_cons, ih]
    simp [Expression.add]
    ring

lemma foldl_add_constant (l : List Expression) (init : Expression) :
    (l.foldl Expression.add init).constant
      = init.constant + (l.map Expression.constant).sum := by
  induction l generalizing init with
  | nil => simp
  | cons e es ih =>
    rw [List.foldl_cons, ih]
    simp [Expression.add]
    ring

lemma sumExprs_coeffs (l : List Expression) (d : Dish) :
    (sumExprs l).coeffs d = (l.map (fun e => e.coeffs d)).sum := by
  rw [sumExprs, foldl_add_coeffs]
  simp [Expression.zero]

lemma sumExprs_constant (l : List Expression) :
    (sumExprs l).constant = (l.map Expression.constant).sum := by
  rw [sumExprs, foldl_add_constant]
  simp [Expression.zero]

lemma term_coeffs (d : Dish) (c : ℚ) (d' : Dish) :
    (term d c).coeffs d' = if d' = d then c else 0 := rfl

lemma term_constant (d : Dish) (c : ℚ) : (term d c).constant = 0 := rfl

lemma evalExpr_add (e₁ e₂ : Expression) (a : Dish → ℚ) :
    evalExpr (e₁.add e₂) a = evalExpr e₁ a + evalExpr e₂ a := by
  simp only [evalExpr, Expression.add, add_mul]
  rw [sum_map_add (fun d => e₁.coeffs d * a d) (fun d => e₂.coeffs d * a d)]
  ring

lemma evalExpr_zero (a : Dish → ℚ) : evalExpr Expression.zero a = 0 := by
  simp [evalExpr, Expression.zero]

lemma evalExpr_sumExprs (l : List Expression) (a : Dish → ℚ) :
    evalExpr (sumExprs l) a = (l.map (fun e => evalExpr e a)).sum := by
  have key : ∀ (l : List Expression) (init : Expression),
      evalExpr (l.foldl Expression.add init) a
        = evalExpr init a + (l.map (fun e => evalExpr e a)).sum := by
    intro l
    induction l with
    | nil => simp
    | cons e es ih =>
      intro init
      rw [List.foldl_cons, ih, evalExpr_add]
      simp
      ring
  rw [sumExprs, key, evalExpr_zero, zero_add]

lemma evalExpr_term (d : Dish) (c : ℚ) (a : Dish → ℚ) :
    evalExpr (term d c) a = c * a d := by
  cases d <;> simp [evalExpr, term, Dish.FOODS]

/- ----------------------------------------------------------------
   Aggregation-map characterisation.
   ---------------------------------------------------------------- -/

/-- The terms a single food contributes to nutrient `n`: one per matching
entry of its nutrient table, in order. -/
def perFood (fp : FoodProperties) (n : Nutrient) : List Expression :=
  (fp.nutrients.filter (fun p => n = p.nutrient)).map (fun p => term fp.food p.volume)

lemma nutrientFold_apply (d : Dish) (l : List FoodProperty)
    (h : Nutrient → List Expression) (n : Nutrient) :
    (l.foldl
      (fun h' p => fun n' => if n' = p.nutrient then h' n' ++ [term d p.volume] else h' n')
      h) n
      = h n ++ (l.filter (fun p => n = p.nutrient)).map (fun p => term d p.volume) := by
  induction l generalizing h with
  | nil => simp
  | cons p ps ih =>
    rw [List.foldl_cons, ih]
    by_cases hn : n = p.nutrient
    · simp [hn, List.filter_cons]
    · simp [hn, List.filter_cons]

lemma stepFood_apply (h : Nutrient → List Expression) (fp : FoodProperties) (n : Nutrient) :
    stepFood h fp n = h n ++ perFood fp n := by
  rw [stepFood, perFood, nutrientFold_apply]

lemma buildHFrom_apply (fps : List FoodProperties) (h0 : Nutrient → List Expression)
    (n : Nutrient) :
    buildHFrom h0 fps n = h0 n ++ fps.flatMap (fun fp => perFood fp n) := by
  induction fps generalizing h0 with
  | nil => simp [buildHFrom]
  | cons fp fps ih =>
    rw [buildHFrom, List.foldl_cons]
    rw [show (List.foldl stepFood (stepFood h0 fp) fps) = buildHFrom (stepFood h0 fp) fps from rfl]
    rw [ih, stepFood_apply, List.flatMap_cons, List.append_assoc]

lemma buildH_apply (fps : List FoodProperties) (n : Nutrient) :
    buildH fps n = fps.flatMap (fun fp => perFood fp n) := by
  rw [buildH, buildHFrom_apply]
  simp

/-- The specification side of claim C4 (§3 invariants): the aggregated
coefficient of dish `d` in category `n` is the sum, over the entries of
`food_properties` carrying a nutrient entry for `n`, of that entry's
contribution value when the entry's item is `d`. -/
def specCategoryCoeff (fps : List FoodProperties) (n : Nutrient) (d : Dish) : ℚ :=
  (fps.map (fun fp =>
    if d = fp.food
    then ((fp.nutrients.filter (fun p => n = p.nutrient)).map FoodProperty.volume).sum
    else 0)).sum

lemma perFood_coeffs_sum (fp : FoodProperties) (n : Nutrient) (d : Dish) :
    ((perFood fp n).map (fun e => e.coeffs d)).sum
      = if d = fp.food
        then ((fp.nutrients.filter (fun p => n = p.nutrient)).map FoodProperty.volume).sum
        else 0 := by
  rw [perFood, List.map_map]
  by_cases hd : d = fp.food
  · simp only [hd, if_pos rfl]
    congr 1
    apply List.map_congr_left
    intro p _
    simp [Function.comp, term_coeffs]
  · rw [if_neg hd]
    apply List.sum_eq_zero
    intro x hx
    rcases List.mem_map.mp hx with ⟨p, _, hp⟩
    simp only [Function.comp, term_coeffs, if_neg hd] at hp
    exact hp.symm

lemma categoryExpr_coeffs (fps : List FoodProperties) (n : Nutrient) (d : Dish) :
    (categoryExpr fps n).coeffs d = specCategoryCoeff fps n d := by
  rw [categoryExpr, sumExprs_coeffs, buildH_apply, specCategoryCoeff]
  induction fps with
  | nil => simp
  | cons fp fps ih =>
    rw [List.flatMap_cons, List.map_append, List.sum_append, ih, List.map_cons,
      List.sum_cons, perFood_coeffs_sum]

lemma categoryExpr_constant (fps : List FoodProperties) (n : Nutrient) :
    (categoryExpr fps n).constant = 0 := by
  rw [categoryExpr, sumExprs_constant]
  apply List.sum_eq_zero
  intro x hx
  rcases List.mem_map.mp hx with ⟨e, he, rfl⟩
  rw [buildH_apply] at he
  rcases List.mem_flatMap.mp he with ⟨fp, _, hfp⟩
  rcases List.mem_map.mp hfp with ⟨p, _, rfl⟩
  rfl

/- ----------------------------------------------------------------
   Objective closed form.
   ---------------------------------------------------------------- -/

/-- The specification side of claim C5 (§4.5): the objective coefficient
of dish `d` is the sum of the costs of the `food_properties` entries
whose item is `d`. -/
def specObjectiveCoeff (fps : List FoodProperties) (d : Dish) : ℚ :=
  (fps.map (fun fp => if d = fp.food then fp.cost else 0)).sum

lemma objectiveExpr_coeffs (fps : List FoodProperties) (d : Dish) :
    (objectiveExpr fps).coeffs d = specObjectiveCoeff fps d := by
  rw [objectiveExpr, sumExprs_coeffs, List.map_map, specObjectiveCoeff]
  congr 1

lemma objectiveExpr_constant (fps : List FoodProperties) :
    (objectiveExpr fps).constant = 0 := by
  rw [objectiveExpr, sumExprs_constant]
  apply List.sum_eq_zero
  intro x hx
  rcases List.mem_map.mp hx with ⟨e, he, rfl⟩
  rcases List.mem_map.mp he with ⟨fp, _, rfl⟩
  rfl

lemma evalExpr_objective (fps : List FoodProperties) (a : Dish → ℚ) :
    evalExpr (objectiveExpr fps) a = (fps.map (fun fp => fp.cost * a fp.food)).sum := by
  rw [objectiveExpr, evalExpr_sumExprs, List.map_map]
  congr 1
  apply List.map_congr_left
  intro fp _
  simp [Function.comp, evalExpr_term]

/- ----------------------------------------------------------------
   Guideline-translation characterisation.
   ---------------------------------------------------------------- -/

/-- The specification side of claims C2/C4 (§4.4): the constraints one
guideline is described to produce — Minimum: the aggregated category
expression ≥ bound + 0.0001; Maximum: the aggregated expression ≤ bound;
Informational: none. -/
def describeGuideline (fps : List FoodProperties) (g : Guideline) : List Constraint :=
  match g.limit.level with
  | .Min => [⟨categoryExpr fps g.limit.nutrient, .ge, g.limit.volume + 0.0001⟩]
  | .Max => [⟨categoryExpr fps g.limit.nutrient, .le, g.limit.volume⟩]
  | .Value => []

lemma hGet_some {h : Nutrient → List Expression} {n : Nutrient}
    {exprs : List Expression} (hg : hGet h n = some exprs) : exprs = h n := by
  rw [hGet] at hg
  split at hg
  · cases hg
  · exact (Option.some.inj hg).symm

lemma guidelineConstraints_ok (fps : List FoodProperties) (g : Guideline)
    (cs : List Constraint)
    (hok : guidelineConstraints (buildH fps) g = Except.ok cs) :
    cs = describeGuideline fps g := by
  rw [guidelineConstraints] at hok
  cases hg : hGet (buildH fps) g.limit.nutrient with
  | none => rw [hg] at hok; cases hok
  | some exprs =>
    rw [hg] at hok
    have he : exprs = buildH fps g.limit.nutrient := hGet_some hg
    subst he
    rw [describeGuideline]
    cases hl : g.limit.level with
    | Min => rw [hl] at hok; rw [categoryExpr]; exact (Except.ok.inj hok).symm
    | Max => rw [hl] at hok; rw [categoryExpr]; exact (Except.ok.inj hok).symm
    | Value => rw [hl] at hok; exact (Except.ok.inj hok).symm

lemma guidelineConstraints_error {h : Nutrient → List Expression} {g : Guideline}
    {e : String} (herr : guidelineConstraints h g = Except.error e) :
    e = "Library test" ∧ hGet h g.limit.nutrient = none := by
  rw [guidelineConstraints] at herr
  cases hg : hGet h g.limit.nutrient with
  | none => rw [hg] at herr; exact ⟨(Except.error.inj herr).symm, rfl⟩
  | some exprs =>
    rw [hg] at herr
    cases hl : g.limit.level <;> rw [hl] at herr <;> cases herr

lemma constraintsLoop_ok (fps : List FoodProperties) :
    ∀ (gs : List Guideline) (cs : List Constraint),
    constraintsLoop (buildH fps) gs = Except.ok cs →
    cs = gs.flatMap (describeGuideline fps) := by
  intro gs
  induction gs with
  | nil =>
    intro cs h
    rw [constraintsLoop] at h
    simp [(Except.ok.inj h).symm]
  | cons g gs ih =>
    intro cs h
    rw [constraintsLoop] at h
    cases hg : guidelineConstraints (buildH fps) g with
    | error e => rw [hg] at h; cases h
    | ok cs₁ =>
      rw [hg] at h
      cases hrest : constraintsLoop (buildH fps) gs with
      | error e => rw [hrest] at h; cases h
      | ok rest =>
        rw [hrest] at h
        rw [List.flatMap_cons, ← guidelineConstraints_ok fps g cs₁ hg, ← ih rest hrest]
        exact (Except.ok.inj h).symm

lemma constraintsLoop_error_of_uncovered (h : Nutrient → List Expression) :
    ∀ (gs : List Guideline), (∃ g ∈ gs, hGet h g.limit.nutrient = none) →
    constraintsLoop h gs = Except.error "Library test" := by
  intro gs
  induction gs with
  | nil => rintro ⟨g, hg, _⟩; cases hg
  | cons g gs ih =>
    rintro ⟨g', hg', hnone⟩
    rw [constraintsLoop]
    rcases List.mem_cons.mp hg' with hgg | htail
    · subst hgg
      rw [guidelineConstraints, hnone]
    · cases hg : guidelineConstraints h g with
      | error e =>
        rw [(guidelineConstraints_error hg).1]
      | ok cs₁ =>
        rw [ih ⟨g', htail, hnone⟩]

lemma formulate_ok (gs : List Guideline) (fps : List FoodProperties) (lp : LP)
    (h : formulate gs fps = Except.ok lp) :
    lp = ⟨.minimize, objectiveExpr fps, gs.flatMap (describeGuideline fps)⟩ := by
  rw [formulate] at h
  cases hc : formulateConstraints gs fps with
  | error e => rw [hc] at h; cases h
  | ok cs =>
    rw [hc] at h
    rw [← constraintsLoop_ok fps gs cs hc]
    exact (Except.ok.inj h).symm

lemma getVar_total : ∀ d : Dish, (getVar foodVarsAssoc d).isSome := by decide

/- ----------------------------------------------------------------
   Optimality facts for the unconstrained formulation.
   ---------------------------------------------------------------- -/

lemma sum_zero_of_nonneg (l : List ℚ) (hn : ∀ x ∈ l, 0 ≤ x) (hs : l.sum = 0) :
    ∀ x ∈ l, x = 0 := by
  induction l with
  | nil => intro x hx; cases hx
  | cons y ys ih =>
    have hys : 0 ≤ ys.sum := List.sum_nonneg (fun x hx => hn x (List.mem_cons_of_mem _ hx))
    have hy : 0 ≤ y := hn y (List.mem_cons_self _ _)
    rw [List.sum_cons] at hs
    intro x hx
    rcases List.mem_cons.mp hx with rfl | hx'
    · linarith
    · exact ih (fun z hz => hn z (List.mem_cons_of_mem _ hz)) (by linarith) x hx'

lemma objective_eval_nonneg (fps : List FoodProperties)
    (hc : ∀ fp ∈ fps, 0 ≤ fp.cost) (a : Dish → ℚ) (ha : ∀ d, 0 ≤ a d) :
    0 ≤ evalExpr (objectiveExpr fps) a := by
  rw [evalExpr_objective]
  apply List.sum_nonneg
  intro x hx
  rcases List.mem_map.mp hx with ⟨fp, hfp, rfl⟩
  exact mul_nonneg (hc fp hfp) (ha fp.food)

/-- The formulation produced when no guideline is supplied. -/
def noConstraintsLP (fps : List FoodProperties) : LP :=
  ⟨.minimize, objectiveExpr fps, []⟩

lemma zero_feasible_noConstraints (fps : List FoodProperties) :
    FeasiblePoint (noConstraintsLP fps) (fun _ => 0) :=
  ⟨fun _ => le_refl 0, fun _ hc => absurd hc (List.not_mem_nil _)⟩

lemma evalExpr_objective_zero (fps : List FoodProperties) :
    evalExpr (objectiveExpr fps) (fun _ => 0) = 0 := by
  rw [evalExpr_objective]
  apply List.sum_eq_zero
  intro x hx
  rcases List.mem_map.mp hx with ⟨fp, _, rfl⟩
  simp

lemma zero_optimal_noConstraints (fps : List FoodProperties)
    (hc : ∀ fp ∈ fps, 0 ≤ fp.cost) :
    IsOptimal (noConstraintsLP fps) (fun _ => 0) := by
  refine ⟨zero_feasible_noConstraints fps, ?_⟩
  intro b hb
  show evalExpr (objectiveExpr fps) (fun _ => 0) ≤ evalExpr (objectiveExpr fps) b
  rw [evalExpr_objective_zero]
  exact objective_eval_nonneg fps hc b hb.1

lemma optimal_noConstraints_zero (fps : List FoodProperties)
    (hc : ∀ fp ∈ fps, 0 < fp.cost)
    (hcov : ∀ d, d ∈ fps.map FoodProperties.food)
    (s : Dish → ℚ) (hs : IsOptimal (noConstraintsLP fps) s) :
    evalExpr (objectiveExpr fps) s = 0 ∧ ∀ d, s d = 0 := by
  have h0 : evalExpr (objectiveExpr fps) s ≤ 0 := by
    have hz := hs.2 (fun _ => 0) (zero_feasible_noConstraints fps)
    rwa [show (noConstraintsLP fps).objective = objectiveExpr fps from rfl,
      evalExpr_objective_zero] at hz
  have h1 : 0 ≤ evalExpr (objectiveExpr fps) s :=
    objective_eval_nonneg fps (fun fp hfp => le_of_lt (hc fp hfp)) s hs.1.1
  have heq : evalExpr (objectiveExpr fps) s = 0 := le_antisymm h0 h1
  refine ⟨heq, ?_⟩
  have hterm : ∀ x ∈ fps.map (fun fp => fp.cost * s fp.food), x = 0 := by
    apply sum_zero_of_nonneg
    · intro x hx
      rcases List.mem_map.mp hx with ⟨fp, hfp, rfl⟩
      exact mul_nonneg (le_of_lt (hc fp hfp)) (hs.1.1 fp.food)
    · rw [← evalExpr_objective]
      exact heq
  intro d
  rcases List.mem_map.mp (hcov d) with ⟨fp, hfp, hfd⟩
  have hx := hterm (fp.cost * s fp.food) (List.mem_map_of_mem _ hfp)
  rcases mul_eq_zero.mp hx with h | h
  · exact absurd h (ne_of_gt (hc fp hfp))
  · rw [← hfd]
    exact h

/- ----------------------------------------------------------------
   The concrete Scenario A formulations.
   ---------------------------------------------------------------- -/

/-- The aggregated calorie expression of the Scenario A food table. -/
def calSum : Expression := categoryExpr mainFoodProperties .Calories

/-- The aggregated protein expression of the Scenario A food table. -/
def protSum : Expression := categoryExpr mainFoodProperties .Protein

/-- The aggregated sodium expression of the Scenario A food table. -/
def sodSum : Expression := categoryExpr mainFoodProperties .Sodium

/-- The aggregated fat expression of the Scenario A food table. -/
def fatSum : Expression := categoryExpr mainFoodProperties .Fat

/-- The constraints `solve_diet_example` builds from `main`'s literal
guidelines: note the fifth, `calories ≤ 65`. -/
def mainConstraints : List Constraint :=
  [ ⟨calSum, .ge, 1800 + 0.0001⟩,
    ⟨calSum, .le, 2200⟩,
    ⟨protSum, .ge, 91 + 0.0001⟩,
    ⟨fatSum, .ge, 0 + 0.0001⟩,
    ⟨calSum, .le, 65⟩,
    ⟨sodSum, .ge, 0 + 0.0001⟩,
    ⟨sodSum, .le, 1779⟩ ]

/-- The constraints the reference diet table calls for (fat ≤ 65 in the
fifth slot). -/
def specConstraints : List Constraint :=
  [ ⟨calSum, .ge, 1800 + 0.0001⟩,
    ⟨calSum, .le, 2200⟩,
    ⟨protSum, .ge, 91 + 0.0001⟩,
    ⟨fatSum, .ge, 0 + 0.0001⟩,
    ⟨fatSum, .le, 65⟩,
    ⟨sodSum, .ge, 0 + 0.0001⟩,
    ⟨sodSum, .le, 1779⟩ ]

/-- The formulation `solve_diet_example` hands to the solver on `main`'s
input. -/
def lpMain : LP := ⟨.minimize, objectiveExpr mainFoodProperties, mainConstraints⟩

/-- The formulation obtained from the reference diet table's guideline
list. -/
def lpSpec : LP := ⟨.minimize, objectiveExpr mainFoodProperties, specConstraints⟩

lemma formulate_main : formulate mainGuidelines mainFoodProperties = Except.ok lpMain := rfl

lemma formulate_specG : formulate specGuidelines mainFoodProperties = Except.ok lpSpec := rfl

/-- A concrete diet: 8.5 units of milk and 3 of ice cream. -/
def aFeas : Dish → ℚ
  | .Milk => 17 / 2
  | .IceCream => 3
  | _ => 0

lemma aFeas_feasible : FeasiblePoint lpSpec aFeas := by
  constructor
  · intro d
    cases d <;> norm_num [aFeas]
  · intro c hc
    simp only [lpSpec, specConstraints, List.mem_cons, List.not_mem_nil, or_false] at hc
    rcases hc with rfl | rfl | rfl | rfl | rfl | rfl | rfl
    all_goals
      simp [Satisfies, evalExpr, Dish.FOODS, aFeas, calSum, protSum, sodSum, fatSum,
        categoryExpr_coeffs, categoryExpr_constant, specCategoryCoeff, mainFoodProperties]
    all_goals norm_num

lemma specCategoryCoeff_absent (fps : List FoodProperties) (n : Nutrient) (d : Dish)
    (hd : d ∉ fps.map FoodProperties.food) : specCategoryCoeff fps n d = 0 := by
  rw [specCategoryCoeff]
  apply List.sum_eq_zero
  intro x hx
  rcases List.mem_map.mp hx with ⟨fp, hfp, rfl⟩
  rw [if_neg (fun he => hd (List.mem_map.mpr ⟨fp, hfp, he.symm⟩))]

lemma specObjectiveCoeff_absent (fps : List FoodProperties) (d : Dish)
    (hd : d ∉ fps.map FoodProperties.food) : specObjectiveCoeff fps d = 0 := by
  rw [specObjectiveCoeff]
  apply List.sum_eq_zero
  intro x hx
  rcases List.mem_map.mp hx with ⟨fp, hfp, rfl⟩
  rw [if_neg (fun he => hd (List.mem_map.mpr ⟨fp, hfp, he.symm⟩))]

/- ================================================================
   Claim theorems.
   ================================================================ -/

/-- C1: the claim states that on the Scenario A input constructed in
`main` the solve step succeeds with a feasible, finite-cost solution.
In fact `main`'s fifth guideline is `calories ≤ 65` (not `fat ≤ 65` as
the reference diet table requires), so the formulation also containing
`calories ≥ 1800 + 0.0001` is infeasible and the solve cannot succeed;
with the fifth guideline corrected to `fat ≤ 65` the formulation is
feasible (witnessed by 8.5 milk + 3 ice cream). -/
theorem c1_scenarioA_infeasible :
    formulate mainGuidelines mainFoodProperties = Except.ok lpMain ∧
    Infeasible lpMain ∧
    formulate specGuidelines mainFoodProperties = Except.ok lpSpec ∧
    FeasiblePoint lpSpec aFeas := by
  refine ⟨formulate_main, ?_, formulate_specG, aFeas_feasible⟩
  intro a ha
  obtain ⟨hpos, hc⟩ := ha
  have h1 := hc ⟨calSum, .ge, 1800 + 0.0001⟩ (by simp [lpMain, mainConstraints])
  have h5 := hc ⟨calSum, .le, 65⟩ (by simp [lpMain, mainConstraints])
  simp only [Satisfies] at h1 h5
  norm_num at h1 h5
  linarith

/-- C2: every guideline the loop processes translates as described —
Minimum gives exactly one constraint `aggregate ≥ bound + 0.0001`,
Maximum exactly one constraint `aggregate ≤ bound`, Informational (Value)
none — and the problem receives no constraints besides these. -/
theorem c2_guideline_translation (gs : List Guideline) (fps : List FoodProperties)
    (cs : List Constraint) (h : formulateConstraints gs fps = Except.ok cs) :
    cs = gs.flatMap (describeGuideline fps) :=
  constraintsLoop_ok fps gs cs h

/-- C2 witness: the seven Scenario A guidelines translate to exactly the
seven constraints of `mainConstraints`. -/
theorem c2_witness :
    mainConstraints = mainGuidelines.flatMap (describeGuideline mainFoodProperties) :=
  c2_guideline_translation mainGuidelines mainFoodProperties mainConstraints rfl

/-- C3 counterexample: a guideline referencing a category to which no
registered item contributes does not yield an `UnknownCategory` error
result — the guideline loop aborts with the panic message of
`.expect("Library test")` (modelled as the error string carried by the
`Except`), and `solve_diet_example`'s `Result` return value never carries
such an error. -/
theorem c3_counterexample :
    formulateConstraints [⟨⟨.Fat, 65, .Max⟩⟩] [] = Except.error "Library test" := rfl

/-- C3 amended: a guideline whose nutrient category no item contributes
to makes `solve_diet_example` abort via the `.expect("Library test")`
panic in the guideline loop (before any solve), rather than return an
`UnknownCategory` error result; likewise an infeasible formulation
aborts at `p.solve().expect("Library test")`. -/
theorem c3_panic_on_unknown_category (gs : List Guideline) (fps : List FoodProperties)
    (h : ∃ g ∈ gs, hGet (buildH fps) g.limit.nutrient = none) :
    formulateConstraints gs fps = Except.error "Library test" :=
  constraintsLoop_error_of_uncovered (buildH fps) gs h

/-- C3 witness: a protein guideline over an empty food table panics. -/
theorem c3_witness :
    formulateConstraints [⟨⟨.Protein, 91, .Min⟩⟩] [] = Except.error "Library test" :=
  c3_panic_on_unknown_category [⟨⟨.Protein, 91, .Min⟩⟩] []
    ⟨⟨⟨.Protein, 91, .Min⟩⟩, List.mem_singleton_self _, rfl⟩

/-- C4: the expression constrained for a Minimum/Maximum guideline's
category is the sum, over the `food_properties` entries carrying a
nutrient entry for that category, of contribution value × that item's
variable, with no constant term. -/
theorem c4_constrained_expression (fps : List FoodProperties) (g : Guideline)
    (cs : List Constraint) (c : Constraint)
    (hok : guidelineConstraints (buildH fps) g = Except.ok cs) (hc : c ∈ cs) :
    (∀ d, c.lhs.coeffs d = specCategoryCoeff fps g.limit.nutrient d) ∧
    c.lhs.constant = 0 := by
  have hcs := guidelineConstraints_ok fps g cs hok
  subst hcs
  obtain ⟨⟨n, v, lv⟩⟩ := g
  cases lv with
  | Min =>
    rw [describeGuideline] at hc
    rcases List.mem_singleton.mp hc with rfl
    exact ⟨fun d => categoryExpr_coeffs fps n d, categoryExpr_constant fps n⟩
  | Max =>
    rw [describeGuideline] at hc
    rcases List.mem_singleton.mp hc with rfl
    exact ⟨fun d => categoryExpr_coeffs fps n d, categoryExpr_constant fps n⟩
  | Value =>
    rw [describeGuideline] at hc
    cases hc

/-- C4 witness: the calorie-minimum constraint of Scenario A constrains
exactly the per-entry calorie contribution sum. -/
theorem c4_witness :
    (∀ d, (Constraint.mk calSum .ge (1800 + 0.0001)).lhs.coeffs d
        = specCategoryCoeff mainFoodProperties .Calories d) ∧
    (Constraint.mk calSum .ge (1800 + 0.0001)).lhs.constant = 0 :=
  c4_constrained_expression mainFoodProperties ⟨⟨.Calories, 1800, .Min⟩⟩
    [⟨calSum, .ge, 1800 + 0.0001⟩] ⟨calSum, .ge, 1800 + 0.0001⟩
    rfl (List.mem_singleton_self _)

/-- C5: the formulation handed to the solver minimises the sum over the
supplied `food_properties` entries of cost × that item's variable (no
constant term), and every such item has a registered variable, so the
`expect("Unmapped food")` lookup in the objective build cannot fail. -/
theorem c5_objective (gs : List Guideline) (fps : List FoodProperties) (lp : LP)
    (h : formulate gs fps = Except.ok lp) :
    lp.direction = .minimize ∧
    (∀ d, lp.objective.coeffs d = specObjectiveCoeff fps d) ∧
    lp.objective.constant = 0 ∧
    (∀ fp ∈ fps, (getVar foodVarsAssoc fp.food).isSome) := by
  have hlp := formulate_ok gs fps lp h
  subst hlp
  exact ⟨rfl, fun d => objectiveExpr_coeffs fps d, objectiveExpr_constant fps,
    fun fp _ => getVar_total fp.food⟩

/-- C5 witness: the Scenario A formulation's objective. -/
theorem c5_witness :
    lpMain.direction = Direction.minimize ∧
    (∀ d, lpMain.objective.coeffs d = specObjectiveCoeff mainFoodProperties d) ∧
    lpMain.objective.constant = 0 ∧
    (∀ fp ∈ mainFoodProperties, (getVar foodVarsAssoc fp.food).isSome) :=
  c5_objective mainGuidelines mainFoodProperties lpMain rfl

/-- C6 counterexample: registering the same item a second time does not
fail with a `DuplicateItem` error — a second variable is created and the
collected map silently rebinds the item to the later variable. -/
theorem c6_counterexample :
    (registerFoods [Dish.Hamburger, Dish.Hamburger]).1.length = 2 ∧
    getVar (registerFoods [Dish.Hamburger, Dish.Hamburger]).2 Dish.Hamburger
      = some 1 := by
  decide

/-- C6 amended: registration creates one decision variable per entry of
`Dish::FOODS`, each with lower bound 0 and no upper bound; since `FOODS`
lists each dish exactly once, every item ends up with exactly one map
binding.  Registering an item a second time would not fail with
`DuplicateItem`: it would silently create a fresh variable and rebind
the item to it. -/
theorem c6_registration :
    (registerFoods Dish.FOODS).1 = List.replicate 9 varMin0 ∧
    varMin0 = ⟨some 0, none⟩ ∧
    (∀ d, ((registerFoods Dish.FOODS).2.filter (fun p => p.1 = d)).length = 1) := by
  exact ⟨rfl, rfl, by decide⟩

/-- C7: with no guidelines the formulation has no constraints; if every
dish appears in `food_properties` with positive cost, the zero
assignment is optimal, the optimal objective value is 0, and every
optimal solution sets every decision variable to its lower bound 0. -/
theorem c7_no_guidelines (fps : List FoodProperties)
    (hcost : ∀ fp ∈ fps, 0 < fp.cost)
    (hcov : ∀ d, d ∈ fps.map FoodProperties.food) :
    formulate [] fps = Except.ok (noConstraintsLP fps) ∧
    (noConstraintsLP fps).constraints = [] ∧
    IsOptimal (noConstraintsLP fps) (fun _ => 0) ∧
    (∀ s, IsOptimal (noConstraintsLP fps) s →
      evalExpr (noConstraintsLP fps).objective s = 0 ∧ ∀ d, s d = 0) := by
  refine ⟨rfl, rfl,
    zero_optimal_noConstraints fps (fun fp h => le_of_lt (hcost fp h)), ?_⟩
  intro s hs
  exact optimal_noConstraints_zero fps hcost hcov s hs

/-- C7 witness: the Scenario A food table with an empty guideline list. -/
theorem c7_witness :
    formulate [] mainFoodProperties = Except.ok (noConstraintsLP mainFoodProperties) ∧
    (noConstraintsLP mainFoodProperties).constraints = [] ∧
    IsOptimal (noConstraintsLP mainFoodProperties) (fun _ => 0) ∧
    (∀ s, IsOptimal (noConstraintsLP mainFoodProperties) s →
      evalExpr (noConstraintsLP mainFoodProperties).objective s = 0 ∧ ∀ d, s d = 0) :=
  c7_no_guidelines mainFoodProperties
    (by norm_num [mainFoodProperties])
    (by intro d; cases d <;> simp [mainFoodProperties])

/-- C8: two solves of one unchanged formulation agree on the objective
value — the formulation built from fixed inputs is a fixed value, and
any two optimal solutions of it have equal objective value. -/
theorem c8_objective_value_deterministic (gs : List Guideline)
    (fps : List FoodProperties) (lp : LP)
    (_h : formulate gs fps = Except.ok lp)
    (s₁ s₂ : Dish → ℚ) (h₁ : IsOptimal lp s₁) (h₂ : IsOptimal lp s₂) :
    evalExpr lp.objective s₁ = evalExpr lp.objective s₂ :=
  le_antisymm (h₁.2 s₂ h₂.1) (h₂.2 s₁ h₁.1)

/-- C8 witness: the guideline-free Scenario A formulation with the zero
assignment as both optimal solutions. -/
theorem c8_witness :
    evalExpr (noConstraintsLP mainFoodProperties).objective (fun _ => 0)
      = evalExpr (noConstraintsLP mainFoodProperties).objective (fun _ => 0) :=
  c8_objective_value_deterministic [] mainFoodProperties
    (noConstraintsLP mainFoodProperties) rfl (fun _ => 0) (fun _ => 0)
    (zero_optimal_noConstraints mainFoodProperties (by norm_num [mainFoodProperties]))
    (zero_optimal_noConstraints mainFoodProperties (by norm_num [mainFoodProperties]))

/-- C9: the aggregated expression of every category is invariant under
permutation of the `food_properties` entries, because expression
addition is commutative. -/
theorem c9_perm_invariant (fps fps' : List FoodProperties) (hp : fps.Perm fps')
    (n : Nutrient) : categoryExpr fps n = categoryExpr fps' n := by
  have hco : (categoryExpr fps n).coeffs = (categoryExpr fps' n).coeffs := by
    funext d
    rw [categoryExpr_coeffs, categoryExpr_coeffs, specCategoryCoeff, specCategoryCoeff]
    exact (hp.map _).sum_eq
  have hk : (categoryExpr fps n).constant = (categoryExpr fps' n).constant := by
    rw [categoryExpr_constant, categoryExpr_constant]
  calc categoryExpr fps n
      = ⟨(categoryExpr fps n).coeffs, (categoryExpr fps n).constant⟩ := rfl
    _ = ⟨(categoryExpr fps' n).coeffs, (categoryExpr fps' n).constant⟩ :=
        Expression.ext_mk hco hk
    _ = categoryExpr fps' n := rfl

/-- The hamburger row of the reference diet table, on its own. -/
def fpHamburger : FoodProperties :=
  ⟨.Hamburger, 2.49,
    [⟨.Calories, 410, .Value⟩, ⟨.Protein, 24, .Value⟩,
     ⟨.Sodium, 730, .Value⟩, ⟨.Fat, 26, .Value⟩]⟩

/-- The milk row of the reference diet table, on its own. -/
def fpMilk : FoodProperties :=
  ⟨.Milk, 0.89,
    [⟨.Calories, 100, .Value⟩, ⟨.Protein, 8, .Value⟩,
     ⟨.Sodium, 125, .Value⟩, ⟨.Fat, 2.5, .Value⟩]⟩

/-- C9 witness: swapping two food rows leaves the calorie aggregate
unchanged. -/
theorem c9_witness :
    List.Perm [fpHamburger, fpMilk] [fpMilk, fpHamburger] ∧
    categoryExpr [fpHamburger, fpMilk] .Calories
      = categoryExpr [fpMilk, fpHamburger] .Calories :=
  ⟨List.Perm.swap fpMilk fpHamburger [],
   c9_perm_invariant [fpHamburger, fpMilk] [fpMilk, fpHamburger]
     (List.Perm.swap fpMilk fpHamburger []) .Calories⟩

/-- C10: exactly nine decision variables are registered, one per entry
of `Dish::FOODS`, whatever the guidelines and food properties are; a
dish absent from `food_properties` still has a registered variable, has
objective coefficient 0, and has coefficient 0 in every constraint. -/
theorem c10_nine_variables (gs : List Guideline) (fps : List FoodProperties)
    (d : Dish) (hd : d ∉ fps.map FoodProperties.food) :
    (registerFoods Dish.FOODS).1.length = 9 ∧
    (getVar foodVarsAssoc d).isSome ∧
    (objectiveExpr fps).coeffs d = 0 ∧
    (∀ lp, formulate gs fps = Except.ok lp → ∀ c ∈ lp.constraints,
      c.lhs.coeffs d = 0) := by
  refine ⟨rfl, getVar_total d, ?_, ?_⟩
  · rw [objectiveExpr_coeffs]
    exact specObjectiveCoeff_absent fps d hd
  · intro lp hlp c hc
    rw [formulate_ok gs fps lp hlp] at hc
    rcases List.mem_flatMap.mp hc with ⟨g, _, hcg⟩
    obtain ⟨⟨n, v, lv⟩⟩ := g
    cases lv with
    | Min =>
      rw [describeGuideline] at hcg
      rcases List.mem_singleton.mp hcg with rfl
      rw [show (Constraint.mk (categoryExpr fps n) .ge (v + 0.0001)).lhs
          = categoryExpr fps n from rfl,
        categoryExpr_coeffs]
      exact specCategoryCoeff_absent fps n d hd
    | Max =>
      rw [describeGuideline] at hcg
      rcases List.mem_singleton.mp hcg with rfl
      rw [show (Constraint.mk (categoryExpr fps n) .le v).lhs
          = categoryExpr fps n from rfl,
        categoryExpr_coeffs]
      exact specCategoryCoeff_absent fps n d hd
    | Value =>
      rw [describeGuideline] at hcg
      cases hcg

/-- The Scenario A food table without its ice-cream row. -/
def eightFoods : List FoodProperties := mainFoodProperties.take 8

/-- C10 witness: with ice cream absent from the food table, its variable
still exists and appears in neither the objective nor any constraint. -/
theorem c10_witness :
    (registerFoods Dish.FOODS).1.length = 9 ∧
    (getVar foodVarsAssoc Dish.IceCream).isSome ∧
    (objectiveExpr eightFoods).coeffs Dish.IceCream = 0 ∧
    (∀ lp, formulate [⟨⟨.Calories, 1800, .Min⟩⟩] eightFoods = Except.ok lp →
      ∀ c ∈ lp.constraints, c.lhs.coeffs Dish.IceCream = 0) :=
  c10_nine_variables [⟨⟨.Calories, 1800, .Min⟩⟩] eightFoods Dish.IceCream
    (by simp [eightFoods, mainFoodProperties])

end Diet
